import Mathlib

/-!
Shallow embedding of the message-driven state machine of `src/app.rs`
(a COSMIC desktop application with a watch, a counter, a password
generator and a number-guessing game).

The embedded core is `AppModel::init` and `AppModel::update`.  Machine
integers are modelled explicitly: the Rust `i64` fields live in `Int`
with two's-complement wrap-around (`wrap64`, release-build overflow
semantics), the `u32` watch value lives in `Nat`.  The process-wide
randomness source (`rand::thread_rng`) is modelled as a stream of raw
draws `Nat → Nat`; `gen_range` maps a raw draw uniformly into the
requested range.  The external "open URL" collaborator is a parameter
`String → Except String Unit`; its failure log line is recorded in the
returned effect log.  Rust operations that can panic (slice indexing in
the password generator) are embedded through `Option`, so `update`
returns `none` exactly when the original code would panic.
-/

namespace CosmicApp

/-- Smallest value of a Rust `i64`. -/
def I64_MIN : Int := -(2 ^ 63)

/-- Largest value of a Rust `i64`. -/
def I64_MAX : Int := 2 ^ 63 - 1

/-- Two's-complement wrap-around of an integer into the `i64` range,
the release-build semantics of Rust `i64` addition and subtraction. -/
def wrap64 (x : Int) : Int := (x + 2 ^ 63) % 2 ^ 64 - 2 ^ 63

/-- The integer is representable as a Rust `i64`. -/
def i64Repr (x : Int) : Prop := I64_MIN ≤ x ∧ x ≤ I64_MAX

instance (x : Int) : Decidable (i64Repr x) := by
  unfold i64Repr; infer_instance

/-- Accumulate a list of decimal digit characters into a natural number,
as the digit loop of Rust `str::parse` does. -/
def parseDigits (cs : List Char) : Nat :=
  cs.foldl (fun a c => a * 10 + (c.toNat - '0'.toNat)) 0

/-- Rust `str::parse::<i64>`: an optional leading `+` or `-` sign
followed by one or more ASCII digits, rejected on empty input, on any
non-digit character and on `i64` overflow. -/
def parseI64 (s : String) : Option Int :=
  match s.toList with
  | [] => none
  | c :: rest =>
    let sign : Int := if c = '-' then -1 else 1
    let digits : List Char := if c = '-' ∨ c = '+' then rest else c :: rest
    if digits = [] then none
    else if digits.all (fun d => d.isDigit) then
      let v : Int := sign * (parseDigits digits : Nat)
      if i64Repr v then some v else none
    else none

/-- One draw of rand `Rng::gen_range(lo..=hi)` (inclusive range on
integers): the raw draw is mapped uniformly onto the `hi - lo + 1`
values of the range. -/
def gen_range_incl (lo hi : Int) (raw : Nat) : Int :=
  lo + (raw % (hi - lo + 1).toNat : Nat)

/-- One draw of rand `Rng::gen_range(lo..hi)` (half-open range on
naturals): the raw draw is mapped uniformly onto `hi - lo` values. -/
def gen_range_excl (lo hi : Nat) (raw : Nat) : Nat :=
  lo + raw % (hi - lo)

/-- The password alphabet `b"abcdefghijklmnopqrstuvwxyz0123456789"` of
`Message::GeneratePassword`. -/
def CHARSET : List Char :=
  ['a', 'b', 'c', 'd', 'e', 'f', 'g', 'h', 'i', 'j', 'k', 'l', 'm',
   'n', 'o', 'p', 'q', 'r', 's', 't', 'u', 'v', 'w', 'x', 'y', 'z',
   '0', '1', '2', '3', '4', '5', '6', '7', '8', '9']

/-- The persisted configuration; its contents are outside the core, so
it is an abstract record with no observable fields. -/
structure Config where

/-- The context page shown in the context drawer (`ContextPage`). -/
inductive ContextPage where
  | About
deriving DecidableEq

/-- The messages of `enum Message` that reach `AppModel::update`. -/
inductive Message where
  | Increment
  | Decrement
  | InputPassword (v : String)
  | ClearPassword
  | GeneratePassword
  | InputNumber (v : String)
  | ClearNumber
  | CheckNumber
  | NewGame
  | LaunchUrl (url : String)
  | ToggleContextPage (cp : ContextPage)
  | ToggleWatch
  | UpdateConfig (cfg : Config)
  | WatchTick (time : Nat)

/-- The mutable state of `struct AppModel` touched by `update`:
the session fields plus the context-drawer state
(`core.window.show_context`) and the persisted configuration. -/
structure AppModel where
  context_page : ContextPage
  show_context : Bool
  config : Config
  /-- `time: u32`, the displayed watch value. -/
  time : Nat
  watch_is_active : Bool
  /-- `value_counter: i64` (invariant: `i64Repr`). -/
  value_counter : Int
  password : String
  /-- `secret_number: i64`, the hidden number of the guessing game. -/
  secret_number : Int
  /-- `number: String`, the raw guess input. -/
  number : String
  feedback : String
  /-- `attempts_counter: i64` (invariant: `i64Repr`). -/
  attempts_counter : Int
  attempts : String

/-- A diagnostic line emitted by `update` (the `eprintln!` of the
`Message::LaunchUrl` error branch, carrying the url and the error). -/
inductive OpenLog where
  | openFailed (url err : String)

/-- AppModel::init restricted to the embedded fields: the watch stopped
at 0, counters zeroed, empty texts, a freshly drawn secret number and
the initial prompt.  `rng` supplies the raw random draws of this call,
`cfg` the loaded configuration and `showContext` the runtime's initial
context-drawer flag. -/
def init (rng : Nat → Nat) (cfg : Config) (showContext : Bool) : AppModel :=
  { context_page := ContextPage.About
    show_context := showContext
    config := cfg
    time := 0
    watch_is_active := false
    value_counter := 0
    password := ""
    secret_number := gen_range_incl 1 100 (rng 0)
    number := ""
    feedback := "A number from 1 to 100 is hidden. Guess it!"
    attempts_counter := 0
    attempts := "Number of attempts: 0" }

/-- The character-collection loop of `Message::GeneratePassword`:
`(0..16).map(|_| CHARSET[rng.gen_range(0..CHARSET.len())] as char).collect()`.
Indexing is embedded through `Option`, `none` marking the panic that an
out-of-bounds index would raise. -/
def collectChars (rng : Nat → Nat) : List Nat → Option (List Char)
  | [] => some []
  | i :: rest =>
    match CHARSET.get? (gen_range_excl 0 CHARSET.length (rng i)) with
    | some c => (collectChars rng rest).map (fun cs => c :: cs)
    | none => none

/-- AppModel::update: the single-step reducer.  `rng` is the stream of
raw random draws available to this call and `openUrl` the external
"open URL" collaborator.  The result is the next state together with
the diagnostic log lines emitted, or `none` where the Rust code would
panic. -/
def update (s : AppModel) (m : Message) (rng : Nat → Nat)
    (openUrl : String → Except String Unit) : Option (AppModel × List OpenLog) :=
  match m with
  | .Increment => some ({ s with value_counter := wrap64 (s.value_counter + 1) }, [])
  | .Decrement => some ({ s with value_counter := wrap64 (s.value_counter - 1) }, [])
  | .InputPassword v => some ({ s with password := v }, [])
  | .ClearPassword => some ({ s with password := "" }, [])
  | .GeneratePassword =>
    match collectChars rng (List.range 16) with
    | some cs => some ({ s with password := String.mk cs }, [])
    | none => none
  | .InputNumber v => some ({ s with number := v }, [])
  | .ClearNumber => some ({ s with number := "" }, [])
  | .CheckNumber =>
    match parseI64 s.number with
    | some num =>
      let fb : String :=
        if num = s.secret_number then
          "✅ Right! This is the number " ++ toString s.secret_number
        else if num < s.secret_number then
          "⏫ My number is higher!"
        else
          "⏬ My number is less!"
      let ac : Int := wrap64 (s.attempts_counter + 1)
      some ({ s with
        feedback := fb
        attempts_counter := ac
        attempts := "Number of attempts: " ++ toString ac }, [])
    | none => some ({ s with feedback := "❌ Enter a number!" }, [])
  | .NewGame =>
    some ({ s with
      secret_number := gen_range_incl 1 100 (rng 0)
      number := ""
      attempts_counter := 0
      feedback := "A new number has been guessed. Guess it!"
      attempts := "Number of attempts: 0" }, [])
  | .LaunchUrl url =>
    match openUrl url with
    | .ok _ => some (s, [])
    | .error err => some (s, [OpenLog.openFailed url err])
  | .ToggleContextPage cp =>
    if s.context_page = cp then
      some ({ s with show_context := !s.show_context }, [])
    else
      some ({ s with context_page := cp, show_context := true }, [])
  | .ToggleWatch => some ({ s with watch_is_active := !s.watch_is_active }, [])
  | .UpdateConfig cfg => some ({ s with config := cfg }, [])
  | .WatchTick t => some ({ s with time := t }, [])

/-- Run a list of messages through `update` in order, dropping the
logs; `rngs n` is the raw-draw stream of the `n`-th dispatch. -/
def runMsgs (s : AppModel) (ms : List Message) (rngs : Nat → Nat → Nat)
    (openUrl : String → Except String Unit) : Option AppModel :=
  match ms with
  | [] => some s
  | m :: rest =>
    match update s m (rngs 0) openUrl with
    | some (s', _) => runMsgs s' rest (fun n => rngs (n + 1)) openUrl
    | none => none

/-- The message is a counter increment. -/
def isInc : Message → Bool
  | .Increment => true
  | _ => false

/-- The message is a counter decrement. -/
def isDec : Message → Bool
  | .Decrement => true
  | _ => false

/-- The password field is either empty or exactly 16 characters drawn
from the password alphabet. -/
def passwordInv (s : AppModel) : Prop :=
  s.password = "" ∨
    (s.password.length = 16 ∧ ∀ c ∈ s.password.toList, c ∈ CHARSET)

/-- The displayed attempts text agrees with the attempts counter. -/
def attemptsInv (s : AppModel) : Prop :=
  s.attempts = "Number of attempts: " ++ toString s.attempts_counter

instance (s : AppModel) : Decidable (passwordInv s) := by
  unfold passwordInv; infer_instance

instance (s : AppModel) : Decidable (attemptsInv s) := by
  unfold attemptsInv; infer_instance

/-! Helper lemmas about the machine-integer model. -/

lemma two_pow_63 : (2 : Int) ^ 63 = 9223372036854775808 := by norm_num

lemma two_pow_64 : (2 : Int) ^ 64 = 18446744073709551616 := by norm_num

/-- Wrap-around is the identity on representable values. -/
lemma wrap64_eq_self {x : Int} (h : i64Repr x) : wrap64 x = x := by
  obtain ⟨h1, h2⟩ := h
  unfold I64_MIN at h1
  unfold I64_MAX at h2
  unfold wrap64
  rw [two_pow_63] at *
  rw [two_pow_64]
  rw [Int.emod_eq_of_lt (by omega) (by omega)]
  omega

/-- Wrap-around always lands in the representable range. -/
lemma wrap64_repr (x : Int) : i64Repr (wrap64 x) := by
  unfold i64Repr I64_MIN I64_MAX wrap64
  have h1 : 0 ≤ (x + 2 ^ 63) % 2 ^ 64 := Int.emod_nonneg _ (by norm_num)
  have h2 : (x + 2 ^ 63) % 2 ^ 64 < 2 ^ 64 := Int.emod_lt_of_pos _ (by norm_num)
  rw [two_pow_63, two_pow_64] at *
  omega

/-- Wrap-around does not change the residue modulo `2 ^ 64`. -/
lemma wrap64_emod (x : Int) : wrap64 x % 2 ^ 64 = x % 2 ^ 64 := by
  unfold wrap64
  rw [Int.sub_emod, Int.emod_emod_of_dvd _ dvd_rfl, ← Int.sub_emod]
  congr 1
  ring

/-- Two representable values with the same residue modulo `2 ^ 64` are
equal. -/
lemma i64Repr_eq_of_emod_eq {a b : Int} (ha : i64Repr a) (hb : i64Repr b)
    (h : a % 2 ^ 64 = b % 2 ^ 64) : a = b := by
  obtain ⟨ha1, ha2⟩ := ha
  obtain ⟨hb1, hb2⟩ := hb
  have h' : Int.ModEq (2 ^ 64) a b := h
  obtain ⟨k, hk⟩ := Int.ModEq.dvd h'
  unfold I64_MIN at ha1 hb1
  unfold I64_MAX at ha2 hb2
  rw [two_pow_63] at *
  rw [two_pow_64] at hk
  omega

/-! Helper lemmas about the password generator. -/

lemma CHARSET_length : CHARSET.length = 36 := rfl

lemma gen_range_excl_lt (x : Nat) :
    gen_range_excl 0 CHARSET.length x < CHARSET.length := by
  unfold gen_range_excl
  simpa using Nat.mod_lt x (by rw [CHARSET_length]; omega)

lemma CHARSET_getD_mem {k : Nat} (hk : k < CHARSET.length) :
    CHARSET.getD k 'a' ∈ CHARSET := by
  rw [List.getD_eq_getElem?_getD, List.getElem?_eq_getElem hk]
  exact List.getElem_mem hk

/-- The character-collection loop never hits the out-of-bounds panic:
it returns exactly the characters indexed by the draws. -/
lemma collectChars_eq (rng : Nat → Nat) (idxs : List Nat) :
    collectChars rng idxs =
      some (idxs.map
        (fun i => CHARSET.getD (gen_range_excl 0 CHARSET.length (rng i)) 'a')) := by
  induction idxs with
  | nil => rfl
  | cons i rest ih =>
    have hlt := gen_range_excl_lt (rng i)
    unfold collectChars
    rw [List.get?_eq_get hlt, ih]
    simp [List.getD_eq_getElem?_getD, List.getElem?_eq_getElem hlt, List.get_eq_getElem]

/-- C1 counterexample: at a session whose attempts counter sits at the
`i64` maximum, a parseable guess does not increase the counter by 1 —
under the two's-complement wrap of `i64` addition it becomes the `i64`
minimum. -/
theorem checkNumber_wrap_counterexample :
    (update { init (fun _ => 0) {} false with
        number := "42"
        secret_number := 50
        attempts_counter := I64_MAX }
      Message.CheckNumber (fun _ => 0) (fun _ => Except.ok ())).map
        (fun p => p.1.attempts_counter) = some I64_MIN ∧
    I64_MIN ≠ I64_MAX + 1 := by
  constructor
  · decide
  · decide

/-- C1 (amended): for every session state and every guess text that
parses as a base-10 signed integer `g`, `Message::CheckNumber` sets the
feedback to the correct-message (including the secret number) when `g`
equals the secret, to the go-higher message when `g` is below the
secret, and to the go-lower message when `g` is above it; in all three
cases the attempts counter becomes the `i64` wrap of counter + 1 and
the attempts display is refreshed to it — an increase by exactly 1
whenever the counter is representable and below the `i64` maximum,
while at the maximum it wraps to the minimum. -/
theorem checkNumber_parsed_spec (s : AppModel) (g : Int) (rng : Nat → Nat)
    (f : String → Except String Unit)
    (hp : parseI64 s.number = some g) :
    (update s Message.CheckNumber rng f = some ({ s with
      feedback :=
        if g = s.secret_number then
          "✅ Right! This is the number " ++ toString s.secret_number
        else if g < s.secret_number then
          "⏫ My number is higher!"
        else
          "⏬ My number is less!"
      attempts_counter := wrap64 (s.attempts_counter + 1)
      attempts := "Number of attempts: " ++
        toString (wrap64 (s.attempts_counter + 1)) }, [])) ∧
    (i64Repr s.attempts_counter → s.attempts_counter ≠ I64_MAX →
      wrap64 (s.attempts_counter + 1) = s.attempts_counter + 1) := by
  constructor
  · simp only [update, hp]
  · intro ha hmax
    apply wrap64_eq_self
    obtain ⟨h1, h2⟩ := ha
    unfold i64Repr I64_MIN I64_MAX at *
    rw [two_pow_63] at *
    omega

/-- C1 witness: a concrete low guess against secret 50, where the wrap
is the plain increment from 0 to 1. -/
theorem checkNumber_parsed_witness :
    update { init (fun _ => 0) {} false with number := "42", secret_number := 50 }
        Message.CheckNumber (fun _ => 0) (fun _ => Except.ok ()) =
      some ({ init (fun _ => 0) {} false with
        number := "42"
        secret_number := 50
        feedback := "⏫ My number is higher!"
        attempts_counter := 1
        attempts := "Number of attempts: 1" }, []) := by
  have h := checkNumber_parsed_spec
    { init (fun _ => 0) {} false with number := "42", secret_number := 50 }
    42 (fun _ => 0) (fun _ => Except.ok ()) (by decide)
  rw [h.1]
  rfl

/-- C2: for every session state whose guess text does not parse as a
base-10 signed integer, `Message::CheckNumber` only sets the feedback
to the invalid-input message; the attempts counter, the attempts
display and every other field are unchanged, and the dispatch still
succeeds (the failure is recovered locally, not signalled). -/
theorem checkNumber_invalid_spec (s : AppModel) (rng : Nat → Nat)
    (f : String → Except String Unit)
    (hp : parseI64 s.number = none) :
    update s Message.CheckNumber rng f =
      some ({ s with feedback := "❌ Enter a number!" }, []) := by
  simp only [update, hp]

/-- C2 witness: the non-numeric guess "abc". -/
theorem checkNumber_invalid_witness :
    update { init (fun _ => 0) {} false with number := "abc" }
        Message.CheckNumber (fun _ => 0) (fun _ => Except.ok ()) =
      some ({ init (fun _ => 0) {} false with
        number := "abc"
        feedback := "❌ Enter a number!" }, []) := by
  have h := checkNumber_invalid_spec { init (fun _ => 0) {} false with number := "abc" }
    (fun _ => 0) (fun _ => Except.ok ()) (by decide)
  simpa using h

/-- C3 counterexample: `Message::NewGame` does not reset the feedback
to the text the session is created with: init says "A number from 1 to
100 is hidden. Guess it!" while NewGame says "A new number has been
guessed. Guess it!". -/
theorem newGame_feedback_counterexample :
    (update (init (fun _ => 0) {} false) Message.NewGame (fun _ => 0)
        (fun _ => Except.ok ())).map (fun p => p.1.feedback) =
      some "A new number has been guessed. Guess it!" ∧
    (init (fun _ => 0) {} false).feedback =
      "A number from 1 to 100 is hidden. Guess it!" ∧
    ("A new number has been guessed. Guess it!" : String) ≠
      "A number from 1 to 100 is hidden. Guess it!" :=
  ⟨rfl, rfl, by decide⟩

/-- C3 (amended): `Message::NewGame` resamples the secret number through
the uniform range draw on [1,100] (every value of [1,100] is reachable),
clears the guess text, resets the attempts counter and display to 0,
and sets the feedback to the new-game prompt — a prompt that differs
from the initial one. -/
theorem newGame_spec (s : AppModel) (rng : Nat → Nat)
    (f : String → Except String Unit) :
    update s Message.NewGame rng f = some ({ s with
      secret_number := gen_range_incl 1 100 (rng 0)
      number := ""
      attempts_counter := 0
      feedback := "A new number has been guessed. Guess it!"
      attempts := "Number of attempts: 0" }, []) ∧
    1 ≤ gen_range_incl 1 100 (rng 0) ∧
    gen_range_incl 1 100 (rng 0) ≤ 100 ∧
    ∀ v : Int, 1 ≤ v → v ≤ 100 → ∃ raw : Nat, gen_range_incl 1 100 raw = v := by
  refine ⟨rfl, ?_, ?_, ?_⟩
  · unfold gen_range_incl
    omega
  · unfold gen_range_incl
    have h : rng 0 % (100 - 1 + 1 : Int).toNat < 100 := Nat.mod_lt _ (by norm_num)
    omega
  · intro v h1 h2
    refine ⟨(v - 1).toNat, ?_⟩
    unfold gen_range_incl
    have h3 : (v - 1).toNat % (100 - 1 + 1 : Int).toNat = (v - 1).toNat := by
      apply Nat.mod_eq_of_lt
      omega
    rw [h3]
    omega

/-- C3 witness: the uniform draw reaches the value 77. -/
theorem newGame_spec_witness :
    ∃ raw : Nat, gen_range_incl 1 100 raw = 77 :=
  (newGame_spec (init (fun _ => 0) {} false) (fun _ => 0)
    (fun _ => Except.ok ())).2.2.2 77 (by decide) (by decide)

/-- The characters produced by one run of the password generator. -/
def generatedChars (rng : Nat → Nat) : List Char :=
  (List.range 16).map
    (fun i => CHARSET.getD (gen_range_excl 0 CHARSET.length (rng i)) 'a')

lemma update_generatePassword (s : AppModel) (rng : Nat → Nat)
    (f : String → Except String Unit) :
    update s Message.GeneratePassword rng f =
      some ({ s with password := String.mk (generatedChars rng) }, []) := by
  simp only [update, collectChars_eq, generatedChars]

lemma generatedChars_length (rng : Nat → Nat) :
    (generatedChars rng).length = 16 := by
  simp [generatedChars]

lemma generatedChars_mem (rng : Nat → Nat) :
    ∀ c ∈ generatedChars rng, c ∈ CHARSET := by
  intro c hc
  simp only [generatedChars, List.mem_map] at hc
  obtain ⟨i, -, rfl⟩ := hc
  exact CHARSET_getD_mem (gen_range_excl_lt (rng i))

/-- C4: `Message::GeneratePassword` assigns to the password field, and
only to it, a string of exactly 16 characters; position `i` holds the
alphabet character selected by the `i`-th of 16 independent uniform
range draws on the 36-symbol alphabet, so every character lies in the
alphabet. -/
theorem generatePassword_spec (s : AppModel) (rng : Nat → Nat)
    (f : String → Except String Unit) :
    ∃ pw : String,
      update s Message.GeneratePassword rng f =
        some ({ s with password := pw }, []) ∧
      pw.length = 16 ∧
      pw.toList = (List.range 16).map
        (fun i => CHARSET.getD (gen_range_excl 0 CHARSET.length (rng i)) 'a') ∧
      ∀ c ∈ pw.toList, c ∈ CHARSET := by
  refine ⟨String.mk (generatedChars rng), update_generatePassword s rng f,
    generatedChars_length rng, ?_, ?_⟩
  · simp [generatedChars]
  · exact generatedChars_mem rng

/-- C4 witness: the generator applied at a concrete state and a
concrete draw stream. -/
theorem generatePassword_witness :
    ∃ pw : String,
      update (init (fun _ => 0) {} false) Message.GeneratePassword
          (fun i => i) (fun _ => Except.ok ()) =
        some ({ init (fun _ => 0) {} false with password := pw }, []) ∧
      pw.length = 16 ∧
      pw.toList = (List.range 16).map
        (fun i => CHARSET.getD (gen_range_excl 0 CHARSET.length i) 'a') ∧
      ∀ c ∈ pw.toList, c ∈ CHARSET :=
  generatePassword_spec (init (fun _ => 0) {} false) (fun i => i)
    (fun _ => Except.ok ())

/-- C5 counterexample: the claim that the password invariant (empty or
exactly 16 alphabet characters) is preserved by every event fails on
`Message::InputPassword`, which stores arbitrary user text verbatim:
from the freshly initialized state, entering "x" yields a 1-character
password. -/
theorem inputPassword_invariant_counterexample :
    passwordInv (init (fun _ => 0) {} false) ∧
    update (init (fun _ => 0) {} false) (Message.InputPassword "x")
        (fun _ => 0) (fun _ => Except.ok ()) =
      some ({ init (fun _ => 0) {} false with password := "x" }, []) ∧
    ¬ passwordInv { init (fun _ => 0) {} false with password := "x" } :=
  ⟨by decide, rfl, by decide⟩

/-- C5 (amended): the password invariant — empty or exactly 16
characters of the fixed alphabet — holds at initialization and is
preserved by every event except `Message::InputPassword`; that event
replaces the password verbatim with the user's text and so can break
the invariant. -/
theorem passwordInv_preserved_spec (s : AppModel) (m : Message)
    (rng : Nat → Nat) (f : String → Except String Unit)
    (s' : AppModel) (logs : List OpenLog)
    (hm : ∀ v, m ≠ Message.InputPassword v)
    (hs : passwordInv s)
    (hu : update s m rng f = some (s', logs)) :
    passwordInv s' := by
  cases m with
  | InputPassword v => exact absurd rfl (hm v)
  | GeneratePassword =>
    rw [update_generatePassword s rng f, Option.some.injEq, Prod.mk.injEq] at hu
    obtain ⟨h5, -⟩ := hu
    subst h5
    exact Or.inr ⟨generatedChars_length rng, generatedChars_mem rng⟩
  | ClearPassword =>
    simp only [update, Option.some.injEq, Prod.mk.injEq] at hu
    obtain ⟨h5, -⟩ := hu
    subst h5
    left
    rfl
  | CheckNumber =>
    rcases hp : parseI64 s.number with - | g <;>
      simp only [update, hp, Option.some.injEq, Prod.mk.injEq] at hu <;>
      obtain ⟨h5, -⟩ := hu <;> subst h5 <;> exact hs
  | LaunchUrl url =>
    rcases hf : f url with e | u <;>
      simp only [update, hf, Option.some.injEq, Prod.mk.injEq] at hu <;>
      obtain ⟨h5, -⟩ := hu <;> subst h5 <;> exact hs
  | ToggleContextPage cp =>
    by_cases hc : s.context_page = cp <;>
      simp only [update, hc, if_true, if_false, reduceIte,
        Option.some.injEq, Prod.mk.injEq] at hu <;>
      obtain ⟨h5, -⟩ := hu <;> subst h5 <;> exact hs
  | Increment =>
    simp only [update, Option.some.injEq, Prod.mk.injEq] at hu
    obtain ⟨h5, -⟩ := hu; subst h5; exact hs
  | Decrement =>
    simp only [update, Option.some.injEq, Prod.mk.injEq] at hu
    obtain ⟨h5, -⟩ := hu; subst h5; exact hs
  | InputNumber v =>
    simp only [update, Option.some.injEq, Prod.mk.injEq] at hu
    obtain ⟨h5, -⟩ := hu; subst h5; exact hs
  | ClearNumber =>
    simp only [update, Option.some.injEq, Prod.mk.injEq] at hu
    obtain ⟨h5, -⟩ := hu; subst h5; exact hs
  | NewGame =>
    simp only [update, Option.some.injEq, Prod.mk.injEq] at hu
    obtain ⟨h5, -⟩ := hu; subst h5; exact hs
  | ToggleWatch =>
    simp only [update, Option.some.injEq, Prod.mk.injEq] at hu
    obtain ⟨h5, -⟩ := hu; subst h5; exact hs
  | UpdateConfig cfg =>
    simp only [update, Option.some.injEq, Prod.mk.injEq] at hu
    obtain ⟨h5, -⟩ := hu; subst h5; exact hs
  | WatchTick t =>
    simp only [update, Option.some.injEq, Prod.mk.injEq] at hu
    obtain ⟨h5, -⟩ := hu; subst h5; exact hs

/-- C5 witness: `Message::ClearNumber` preserves the invariant at the
initial state. -/
theorem passwordInv_preserved_witness :
    passwordInv { init (fun _ => 0) {} false with number := "" } :=
  passwordInv_preserved_spec (init (fun _ => 0) {} false) Message.ClearNumber
    (fun _ => 0) (fun _ => Except.ok ())
    { init (fun _ => 0) {} false with number := "" } []
    (fun v h => Message.noConfusion h) (by decide) rfl

/-- C6: the dispatcher is total — for every state, every message
(including arbitrary unparseable guess text, counter values at the
`i64` extremes, and failing URL opens) the embedded `update`, whose
`none` marks the panics of the original code, returns a result. -/
theorem update_total_spec (s : AppModel) (m : Message) (rng : Nat → Nat)
    (f : String → Except String Unit) :
    (update s m rng f).isSome = true := by
  cases m with
  | GeneratePassword => simp [update, collectChars_eq]
  | CheckNumber => rcases hp : parseI64 s.number with - | g <;> simp [update, hp]
  | LaunchUrl url => rcases hf : f url with e | u <;> simp [update, hf]
  | ToggleContextPage cp => by_cases hc : s.context_page = cp <;> simp [update, hc]
  | Increment => rfl
  | Decrement => rfl
  | InputPassword v => rfl
  | ClearPassword => rfl
  | InputNumber v => rfl
  | ClearNumber => rfl
  | NewGame => rfl
  | ToggleWatch => rfl
  | UpdateConfig cfg => rfl
  | WatchTick t => rfl

/-- Running a list made of increments and decrements always succeeds,
stays representable and shifts the counter by the signed message count
modulo `2 ^ 64`. -/
lemma runMsgs_incDec (f : String → Except String Unit) :
    ∀ (ms : List Message) (s : AppModel) (rngs : Nat → Nat → Nat),
      (∀ m ∈ ms, isInc m ∨ isDec m) →
      i64Repr s.value_counter →
      ∃ s' : AppModel, runMsgs s ms rngs f = some s' ∧
        i64Repr s'.value_counter ∧
        s'.value_counter % 2 ^ 64 =
          (s.value_counter +
            ((ms.countP isInc : Int) - (ms.countP isDec : Int))) % 2 ^ 64 := by
  intro ms
  induction ms with
  | nil =>
    intro s rngs _ hs
    refine ⟨s, rfl, hs, ?_⟩
    simp
  | cons m rest ih =>
    intro s rngs hall hs
    have hm := hall m (List.mem_cons_self m rest)
    have hrest : ∀ m' ∈ rest, isInc m' ∨ isDec m' :=
      fun m' h => hall m' (List.mem_cons_of_mem m h)
    cases m with
    | Increment =>
      obtain ⟨s', h1, h2, h3⟩ := ih
        { s with value_counter := wrap64 (s.value_counter + 1) }
        (fun n => rngs (n + 1)) hrest (wrap64_repr _)
      refine ⟨s', ?_, h2, ?_⟩
      · simpa only [runMsgs, update] using h1
      · rw [h3]
        simp only [List.countP_cons, isInc, isDec, if_true, if_false,
          Bool.false_eq_true, reduceIte]
        conv_lhs => rw [Int.add_emod, wrap64_emod, ← Int.add_emod]
        congr 1
        push_cast
        ring
    | Decrement =>
      obtain ⟨s', h1, h2, h3⟩ := ih
        { s with value_counter := wrap64 (s.value_counter - 1) }
        (fun n => rngs (n + 1)) hrest (wrap64_repr _)
      refine ⟨s', ?_, h2, ?_⟩
      · simpa only [runMsgs, update] using h1
      · rw [h3]
        simp only [List.countP_cons, isInc, isDec, if_true, if_false,
          Bool.false_eq_true, reduceIte]
        conv_lhs => rw [Int.add_emod, wrap64_emod, ← Int.add_emod]
        congr 1
        push_cast
        ring
    | InputPassword v => simp [isInc, isDec] at hm
    | ClearPassword => simp [isInc, isDec] at hm
    | GeneratePassword => simp [isInc, isDec] at hm
    | InputNumber v => simp [isInc, isDec] at hm
    | ClearNumber => simp [isInc, isDec] at hm
    | CheckNumber => simp [isInc, isDec] at hm
    | NewGame => simp [isInc, isDec] at hm
    | LaunchUrl url => simp [isInc, isDec] at hm
    | ToggleContextPage cp => simp [isInc, isDec] at hm
    | ToggleWatch => simp [isInc, isDec] at hm
    | UpdateConfig cfg => simp [isInc, isDec] at hm
    | WatchTick t => simp [isInc, isDec] at hm

/-- C7: dispatching any interleaving of equally many counter
increments and decrements returns the counter to its original value
(the counter is an `i64`, assumed representable). -/
theorem incDec_cancel_spec (s : AppModel) (ms : List Message)
    (rngs : Nat → Nat → Nat) (f : String → Except String Unit)
    (hall : ∀ m ∈ ms, isInc m ∨ isDec m)
    (hcount : ms.countP isInc = ms.countP isDec)
    (hs : i64Repr s.value_counter) :
    ∃ s' : AppModel, runMsgs s ms rngs f = some s' ∧
      s'.value_counter = s.value_counter := by
  obtain ⟨s', h1, h2, h3⟩ := runMsgs_incDec f ms s rngs hall hs
  refine ⟨s', h1, ?_⟩
  apply i64Repr_eq_of_emod_eq h2 hs
  rw [h3, hcount]
  simp

/-- C7 witness: an increment followed by a decrement from the initial
state. -/
theorem incDec_cancel_witness :
    ∃ s' : AppModel,
      runMsgs (init (fun _ => 0) {} false)
        [Message.Increment, Message.Decrement]
        (fun _ _ => 0) (fun _ => Except.ok ()) = some s' ∧
      s'.value_counter = (init (fun _ => 0) {} false).value_counter :=
  incDec_cancel_spec (init (fun _ => 0) {} false)
    [Message.Increment, Message.Decrement] (fun _ _ => 0)
    (fun _ => Except.ok ()) (by decide) (by decide) (by decide)

/-- C8: `Message::ToggleWatch` negates the `watch_is_active` flag and
changes nothing else — in particular the displayed seconds stay put —
and toggling twice with no tick in between restores the state exactly,
so the elapsed value is unchanged until the next tick message. -/
theorem toggleWatch_spec (s : AppModel) (rng rng2 : Nat → Nat)
    (f f2 : String → Except String Unit) :
    update s Message.ToggleWatch rng f =
      some ({ s with watch_is_active := !s.watch_is_active }, []) ∧
    update { s with watch_is_active := !s.watch_is_active }
        Message.ToggleWatch rng2 f2 = some (s, []) := by
  refine ⟨rfl, ?_⟩
  simp only [update, Bool.not_not]

/-- C9: `Message::LaunchUrl` never changes the state: on collaborator
success it emits nothing, and on collaborator failure the error is
recorded in the diagnostic log while the dispatch still returns
normally. -/
theorem launchUrl_spec (s : AppModel) (url : String) (rng : Nat → Nat)
    (f : String → Except String Unit) :
    (∀ u, f url = Except.ok u →
      update s (Message.LaunchUrl url) rng f = some (s, [])) ∧
    (∀ e, f url = Except.error e →
      update s (Message.LaunchUrl url) rng f =
        some (s, [OpenLog.openFailed url e])) := by
  constructor <;> intro x hx <;> simp [update, hx]

/-- C9 witness: a failing collaborator at a concrete url. -/
theorem launchUrl_witness :
    update (init (fun _ => 0) {} false)
        (Message.LaunchUrl "https://example.org") (fun _ => 0)
        (fun _ => Except.error "io error") =
      some (init (fun _ => 0) {} false,
        [OpenLog.openFailed "https://example.org" "io error"]) :=
  (launchUrl_spec (init (fun _ => 0) {} false) "https://example.org"
    (fun _ => 0) (fun _ => Except.error "io error")).2 "io error" rfl

/-- C10: the displayed attempts text equals "Number of attempts: "
followed by the attempts counter at initialization, and every
dispatcher transition preserves the agreement — the operations that
change the counter rewrite the display in the same step. -/
theorem attempts_display_spec :
    (∀ (rng : Nat → Nat) (cfg : Config) (b : Bool),
      attemptsInv (init rng cfg b)) ∧
    (∀ (s : AppModel) (m : Message) (rng : Nat → Nat)
      (f : String → Except String Unit) (s' : AppModel) (logs : List OpenLog),
      attemptsInv s → update s m rng f = some (s', logs) → attemptsInv s') := by
  constructor
  · intro rng cfg b
    rfl
  · intro s m rng f s' logs hs hu
    cases m with
    | GeneratePassword =>
      rw [update_generatePassword s rng f, Option.some.injEq, Prod.mk.injEq] at hu
      obtain ⟨h5, -⟩ := hu; subst h5; exact hs
    | CheckNumber =>
      rcases hp : parseI64 s.number with - | g
      · simp only [update, hp, Option.some.injEq, Prod.mk.injEq] at hu
        obtain ⟨h5, -⟩ := hu; subst h5; exact hs
      · simp only [update, hp, Option.some.injEq, Prod.mk.injEq] at hu
        obtain ⟨h5, -⟩ := hu; subst h5; rfl
    | LaunchUrl url =>
      rcases hf : f url with e | u <;>
        simp only [update, hf, Option.some.injEq, Prod.mk.injEq] at hu <;>
        obtain ⟨h5, -⟩ := hu <;> subst h5 <;> exact hs
    | ToggleContextPage cp =>
      by_cases hc : s.context_page = cp <;>
        simp only [update, hc, if_true, if_false, reduceIte,
          Option.some.injEq, Prod.mk.injEq] at hu <;>
        obtain ⟨h5, -⟩ := hu <;> subst h5 <;> exact hs
    | NewGame =>
      simp only [update, Option.some.injEq, Prod.mk.injEq] at hu
      obtain ⟨h5, -⟩ := hu; subst h5; rfl
    | Increment =>
      simp only [update, Option.some.injEq, Prod.mk.injEq] at hu
      obtain ⟨h5, -⟩ := hu; subst h5; exact hs
    | Decrement =>
      simp only [update, Option.some.injEq, Prod.mk.injEq] at hu
      obtain ⟨h5, -⟩ := hu; subst h5; exact hs
    | InputPassword v =>
      simp only [update, Option.some.injEq, Prod.mk.injEq] at hu
      obtain ⟨h5, -⟩ := hu; subst h5; exact hs
    | ClearPassword =>
      simp only [update, Option.some.injEq, Prod.mk.injEq] at hu
      obtain ⟨h5, -⟩ := hu; subst h5; exact hs
    | InputNumber v =>
      simp only [update, Option.some.injEq, Prod.mk.injEq] at hu
      obtain ⟨h5, -⟩ := hu; subst h5; exact hs
    | ClearNumber =>
      simp only [update, Option.some.injEq, Prod.mk.injEq] at hu
      obtain ⟨h5, -⟩ := hu; subst h5; exact hs
    | ToggleWatch =>
      simp only [update, Option.some.injEq, Prod.mk.injEq] at hu
      obtain ⟨h5, -⟩ := hu; subst h5; exact hs
    | UpdateConfig cfg =>
      simp only [update, Option.some.injEq, Prod.mk.injEq] at hu
      obtain ⟨h5, -⟩ := hu; subst h5; exact hs
    | WatchTick t =>
      simp only [update, Option.some.injEq, Prod.mk.injEq] at hu
      obtain ⟨h5, -⟩ := hu; subst h5; exact hs

/-- C10 witness: the invariant transported across a concrete increment
from the initial state. -/
theorem attempts_display_witness :
    attemptsInv { init (fun _ => 0) {} false with value_counter := wrap64 (0 + 1) } :=
  attempts_display_spec.2 (init (fun _ => 0) {} false) Message.Increment
    (fun _ => 0) (fun _ => Except.ok ())
    { init (fun _ => 0) {} false with value_counter := wrap64 (0 + 1) } []
    (by decide) rfl

end CosmicApp
